import Mathlib

/-!
Verification of `conscious-data/search` (`src/main.rs`): a CLI that formats a
query (optionally together with clipboard content or the output of an external
context-gathering tool) into a payload and opens a provider URL in a browser.

The Rust functions are embedded as Lean functions over `String` / `List Char` /
UTF-8 byte lists (`List Nat`, each element < 256). `main` is embedded as a
deterministic function of the parsed arguments and an environment describing
the external collaborators (clipboard, `contextualize` subprocess, browser),
returning the overall result together with the ordered trace of external
effects performed.
-/

namespace Search

/-! ### UTF-8 byte view of strings

Rust strings are UTF-8 byte sequences; `percent_encoding::utf8_percent_encode`
operates on those bytes. We model the byte view explicitly. -/

/-- The UTF-8 encoding of a single scalar value, as a list of bytes. -/
def utf8EncodeChar (c : Char) : List Nat :=
  if c.toNat < 128 then [c.toNat]
  else if c.toNat < 2048 then [192 + c.toNat / 64, 128 + c.toNat % 64]
  else if c.toNat < 65536 then
    [224 + c.toNat / 4096, 128 + c.toNat / 64 % 64, 128 + c.toNat % 64]
  else
    [240 + c.toNat / 262144, 128 + c.toNat / 4096 % 64,
     128 + c.toNat / 64 % 64, 128 + c.toNat % 64]

/-- The UTF-8 byte sequence of a character list (a Rust `&str`'s bytes). -/
def utf8Encode (s : List Char) : List Nat :=
  s.flatMap utf8EncodeChar

/-! ### Percent-encoding (`percent_encoding` crate, `NON_ALPHANUMERIC` set)

`utf8_percent_encode(query, NON_ALPHANUMERIC)` leaves ASCII alphanumeric bytes
as-is and replaces every other byte `b` (including every byte ≥ 0x80) by
`%HH` with uppercase hexadecimal digits. -/

/-- Membership in the complement of the `NON_ALPHANUMERIC` set: ASCII digits
and letters. Bytes ≥ 0x80 are never alphanumeric, hence always encoded. -/
def isAsciiAlphanumericByte (b : Nat) : Bool :=
  (48 ≤ b && b ≤ 57) || (65 ≤ b && b ≤ 90) || (97 ≤ b && b ≤ 122)

/-- Uppercase hexadecimal digit for a value < 16. -/
def hexDigitChar (n : Nat) : Char :=
  if n < 10 then Char.ofNat (48 + n) else Char.ofNat (55 + n)

/-- Percent-encode a single byte: alphanumeric bytes pass through, every other
byte becomes `%HH`. -/
def percentEncodeByte (b : Nat) : List Char :=
  if isAsciiAlphanumericByte b then [Char.ofNat b]
  else ['%', hexDigitChar (b / 16), hexDigitChar (b % 16)]

/-- Percent-encode a byte sequence. -/
def percentEncode (bs : List Nat) : List Char :=
  bs.flatMap percentEncodeByte

/-- `utf8_percent_encode(s, NON_ALPHANUMERIC).to_string()`. -/
def encodePayload (s : String) : String :=
  String.mk (percentEncode (utf8Encode s.data))

/-! ### Percent-decoding (specification side, for the round-trip claim) -/

/-- Value of a hexadecimal digit character, if it is one. -/
def hexVal (c : Char) : Option Nat :=
  if 48 ≤ c.toNat ∧ c.toNat ≤ 57 then some (c.toNat - 48)
  else if 65 ≤ c.toNat ∧ c.toNat ≤ 70 then some (c.toNat - 55)
  else if 97 ≤ c.toNat ∧ c.toNat ≤ 102 then some (c.toNat - 87)
  else none

/-- Standard percent-decoding of a character sequence into bytes: `%HH`
becomes the byte `HH`, any other character becomes its own code point. -/
def percentDecode : List Char → Option (List Nat)
  | [] => some []
  | c :: cs =>
    if c = '%' then
      match cs with
      | hi :: lo :: rest =>
        match hexVal hi, hexVal lo with
        | some h, some l => (percentDecode rest).map fun bs => (16 * h + l) :: bs
        | _, _ => none
      | _ => none
    else (percentDecode cs).map fun bs => c.toNat :: bs

/-- The value of the (first and only) `=`-introduced query parameter of the
produced URLs: everything after the first `'='`. Both URL templates contain
exactly one `'='`, the one of `?q=`, and the encoded payload contains none. -/
def qValueList : List Char → List Char
  | [] => []
  | c :: cs => if c = '=' then cs else qValueList cs

/-! ### `format_content` (src/main.rs:45) -/

/-- Boolean substring test at every suffix, embedding Rust `str::contains`. -/
def containsAt (pat : List Char) : List Char → Bool
  | [] => pat.isPrefixOf []
  | c :: rest => pat.isPrefixOf (c :: rest) || containsAt pat rest

/-- Rust `content.contains(pat)`. -/
def strContains (s pat : String) : Bool :=
  containsAt pat.data s.data

/-- `format_content` from src/main.rs: wrap the content in a `paste` fence,
escalating to `<paste>`-tags when the content already holds a triple backtick,
then append the query tokens joined by single spaces, if any. -/
def format_content (content : String) (query : List String) : String :=
  let formatted :=
    if strContains content "```" then
      "<paste>\n" ++ content ++ "\n</paste>"
    else
      "```paste\n" ++ content ++ "\n```"
  if !query.isEmpty then
    formatted ++ "\n" ++ " ".intercalate query
  else
    formatted

/-! ### `get_provider_url` (src/main.rs:59) -/

/-- `get_provider_url` from src/main.rs: percent-encode the query and
substitute it into the fixed template of a known provider; reject any other
provider name. -/
def get_provider_url (provider query : String) : Except String String :=
  let encoded_query := encodePayload query
  if provider = "claude" then
    Except.ok ("https://claude.ai/new?q=" ++ encoded_query)
  else if provider = "chatgpt" then
    Except.ok ("https://chatgpt.com/?q=" ++ encoded_query)
  else
    Except.error ("Unsupported provider: " ++ provider)

/-! ### `main` (src/main.rs:96) and its collaborators

`main` is embedded as a deterministic function of the parsed `Args` and an
`Env` describing the external world (clipboard, `contextualize` subprocess,
browser). Besides the `Except`-result it returns the ordered trace of
external effects it performed, so ordering claims («no acquisition happens»,
«the clipboard is read only after the tool succeeded») are statable. -/

instance instDecEqExcept {ε α : Type} [DecidableEq ε] [DecidableEq α] :
    DecidableEq (Except ε α) := fun x y =>
  match x, y with
  | Except.error a, Except.error b =>
    if h : a = b then isTrue (by rw [h]) else isFalse (by intro hc; cases hc; exact h rfl)
  | Except.ok a, Except.ok b =>
    if h : a = b then isTrue (by rw [h]) else isFalse (by intro hc; cases hc; exact h rfl)
  | Except.error _, Except.ok _ => isFalse (by intro hc; cases hc)
  | Except.ok _, Except.error _ => isFalse (by intro hc; cases hc)

/-- The parsed command-line arguments (the `Args` struct of src/main.rs). -/
structure Args where
  context : Option (List String)
  clipboard : Bool
  provider : String
  prompt : List String
deriving DecidableEq

/-- The external world: what the clipboard read returns (`Except.error` when
no access strategy succeeds), whether `contextualize` exits zero and what it
writes to its diagnostic stream, and whether the browser spawn succeeds. -/
structure Env where
  clipboardResult : Except String String
  contextualizeOk : Bool
  contextualizeStderr : String
  browserOk : Bool
deriving DecidableEq

/-- An external effect performed by the program, in order. -/
inductive Effect where
  | runContextualize (files : List String)
  | readClipboard
  | openBrowser (url : String)
deriving DecidableEq

/-- `get_clipboard_content` from src/main.rs: returns the clipboard text or
an acquisition error. -/
def get_clipboard_content (env : Env) : Except String String :=
  env.clipboardResult

/-- `run_contextualize` from src/main.rs: run
`contextualize cat --output clipboard <files...>`; on a non-zero exit status
fail with a message carrying the captured diagnostic stream. -/
def run_contextualize (env : Env) (_files : List String) : Except String Unit :=
  if env.contextualizeOk then Except.ok ()
  else Except.error ("contextualize command failed: " ++ env.contextualizeStderr)

/-- `run_search` from src/main.rs: resolve the provider URL and open it in
the browser. The `openBrowser` effect records the attempted launch. -/
def run_search (env : Env) (input provider : String) :
    Except String Unit × List Effect :=
  match get_provider_url provider input with
  | Except.error e => (Except.error e, [])
  | Except.ok url =>
    if env.browserOk then (Except.ok (), [Effect.openBrowser url])
    else (Except.error "Failed to open browser", [Effect.openBrowser url])

/-- `main` from src/main.rs: reject conflicting flags, acquire content
(context tool → clipboard, or clipboard alone, or none), then launch with the
formatted content or with the bare joined query. -/
def mainRun (env : Env) (args : Args) : Except String Unit × List Effect :=
  if args.clipboard && args.context.isSome then
    (Except.error "--clipboard and --context flags are not compatible", [])
  else
    let acq : Except String String × List Effect :=
      match args.context with
      | some files =>
        match run_contextualize env files with
        | Except.error e => (Except.error e, [Effect.runContextualize files])
        | Except.ok _ =>
          (get_clipboard_content env,
           [Effect.runContextualize files, Effect.readClipboard])
      | none =>
        if args.clipboard then (get_clipboard_content env, [Effect.readClipboard])
        else (Except.ok "", [])
    match acq with
    | (Except.error e, tr) => (Except.error e, tr)
    | (Except.ok content, tr) =>
      let step :=
        if content = "" then
          run_search env (" ".intercalate args.prompt) args.provider
        else
          run_search env (format_content content args.prompt) args.provider
      (step.1, tr ++ step.2)

/-! ### Basic character lemmas -/

/-- Code point of `Char.ofNat` below the surrogate range. -/
theorem char_toNat_ofNat {n : Nat} (h : n < 55296) : (Char.ofNat n).toNat = n := by
  have hv : n.isValidChar := Or.inl h
  simp only [Char.ofNat]
  rw [dif_pos hv]
  rfl

/-- `Char.toNat` is injective. -/
theorem char_toNat_inj {a b : Char} (h : a.toNat = b.toNat) : a = b :=
  calc a = Char.ofNat a.toNat := (Char.ofNat_toNat a).symm
    _ = Char.ofNat b.toNat := by rw [h]
    _ = b := Char.ofNat_toNat b

/-- Every scalar value is below `0x110000`. -/
theorem char_toNat_lt (c : Char) : c.toNat < 1114112 := by
  rcases c.valid with h | ⟨_, h⟩
  · exact Nat.lt_trans h (by norm_num)
  · exact h

/-! ### UTF-8 lemmas -/

/-- UTF-8 encoding emits genuine bytes. -/
theorem utf8EncodeChar_lt (c : Char) : ∀ b ∈ utf8EncodeChar c, b < 256 := by
  have h := char_toNat_lt c
  intro b hb
  by_cases h1 : c.toNat < 128
  · simp [utf8EncodeChar, h1] at hb; omega
  · by_cases h2 : c.toNat < 2048
    · simp [utf8EncodeChar, h1, h2] at hb; rcases hb with hb | hb <;> omega
    · by_cases h3 : c.toNat < 65536
      · simp [utf8EncodeChar, h1, h2, h3] at hb
        rcases hb with hb | hb | hb <;> omega
      · simp [utf8EncodeChar, h1, h2, h3] at hb
        rcases hb with hb | hb | hb | hb <;> omega

/-- Byte bound over whole strings. -/
theorem utf8Encode_lt (s : List Char) : ∀ b ∈ utf8Encode s, b < 256 := by
  intro b hb
  simp only [utf8Encode, List.mem_flatMap] at hb
  obtain ⟨c, _, hbc⟩ := hb
  exact utf8EncodeChar_lt c b hbc

/-- The encoding of a character is never empty. -/
theorem utf8EncodeChar_ne_nil (c : Char) : utf8EncodeChar c ≠ [] := by
  unfold utf8EncodeChar
  split
  · simp
  · split
    · simp
    · split <;> simp

/-- Reading one code point back from a UTF-8 stream. -/
def decodeOneCp : List Nat → Option (Nat × List Nat)
  | [] => none
  | b :: rest =>
    if b < 128 then some (b, rest)
    else if b < 224 then
      match rest with
      | b2 :: rest2 => some ((b - 192) * 64 + (b2 - 128), rest2)
      | [] => none
    else if b < 240 then
      match rest with
      | b2 :: b3 :: rest3 =>
        some ((b - 224) * 4096 + (b2 - 128) * 64 + (b3 - 128), rest3)
      | _ => none
    else
      match rest with
      | b2 :: b3 :: b4 :: rest4 =>
        some ((b - 240) * 262144 + (b2 - 128) * 4096 + (b3 - 128) * 64 + (b4 - 128),
              rest4)
      | _ => none

/-- The one-code-point reader inverts `utf8EncodeChar`, leaving the remaining
stream untouched. -/
theorem decodeOneCp_encodeChar (c : Char) (u : List Nat) :
    decodeOneCp (utf8EncodeChar c ++ u) = some (c.toNat, u) := by
  have h := char_toNat_lt c
  by_cases h1 : c.toNat < 128
  · simp only [utf8EncodeChar, if_pos h1, List.cons_append, List.nil_append]
    simp [decodeOneCp, h1]
  · by_cases h2 : c.toNat < 2048
    · simp only [utf8EncodeChar, if_neg h1, if_pos h2, List.cons_append, List.nil_append]
      simp only [decodeOneCp]
      rw [if_neg (by omega), if_pos (by omega)]
      simp only [Option.some.injEq, Prod.mk.injEq, and_true]
      omega
    · by_cases h3 : c.toNat < 65536
      · simp only [utf8EncodeChar, if_neg h1, if_neg h2, if_pos h3, List.cons_append,
          List.nil_append]
        simp only [decodeOneCp]
        rw [if_neg (by omega), if_neg (by omega), if_pos (by omega)]
        simp only [Option.some.injEq, Prod.mk.injEq, and_true]
        omega
      · simp only [utf8EncodeChar, if_neg h1, if_neg h2, if_neg h3, List.cons_append,
          List.nil_append]
        simp only [decodeOneCp]
        rw [if_neg (by omega), if_neg (by omega), if_neg (by omega)]
        simp only [Option.some.injEq, Prod.mk.injEq, and_true]
        omega

/-- UTF-8 encoding is injective: equal byte sequences come from equal
character sequences. -/
theorem utf8Encode_inj : ∀ {s t : List Char}, utf8Encode s = utf8Encode t → s = t := by
  intro s
  induction s with
  | nil =>
    intro t h
    cases t with
    | nil => rfl
    | cons b t' =>
      exfalso
      simp only [utf8Encode, List.flatMap_nil, List.flatMap_cons] at h
      exact utf8EncodeChar_ne_nil b (List.append_eq_nil.mp h.symm).1
  | cons a s' ih =>
    intro t h
    cases t with
    | nil =>
      exfalso
      simp only [utf8Encode, List.flatMap_nil, List.flatMap_cons] at h
      exact utf8EncodeChar_ne_nil a (List.append_eq_nil.mp h).1
    | cons b t' =>
      simp only [utf8Encode, List.flatMap_cons] at h
      have h1 := congrArg decodeOneCp h
      rw [decodeOneCp_encodeChar, decodeOneCp_encodeChar] at h1
      simp only [Option.some.injEq, Prod.mk.injEq] at h1
      rw [char_toNat_inj h1.1, ih (by simpa [utf8Encode] using h1.2)]

/-! ### Percent-encoding lemmas -/

/-- `hexVal` recovers the value of an uppercase hexadecimal digit. -/
theorem hexVal_hexDigitChar {m : Nat} (hm : m < 16) :
    hexVal (hexDigitChar m) = some m := by
  by_cases h : m < 10
  · have ht : (Char.ofNat (48 + m)).toNat = 48 + m := char_toNat_ofNat (by omega)
    simp only [hexDigitChar, if_pos h, hexVal, ht]
    rw [if_pos (by omega)]
    simp only [Option.some.injEq]
    omega
  · have ht : (Char.ofNat (55 + m)).toNat = 55 + m := char_toNat_ofNat (by omega)
    simp only [hexDigitChar, if_neg h, hexVal, ht]
    rw [if_neg (by omega), if_pos (by omega)]
    simp only [Option.some.injEq]
    omega

/-- Unfolding `percentDecode` on an unescaped character. -/
theorem percentDecode_cons_ne {c : Char} (h : ¬ c = '%') (cs : List Char) :
    percentDecode (c :: cs) = (percentDecode cs).map fun bs => c.toNat :: bs := by
  rw [percentDecode.eq_def]
  simp only [if_neg h]

/-- Unfolding `percentDecode` on a `%HH` escape. -/
theorem percentDecode_cons_pct (hi lo : Char) (cs : List Char) :
    percentDecode ('%' :: hi :: lo :: cs) =
      match hexVal hi, hexVal lo with
      | some h, some l => (percentDecode cs).map fun bs => (16 * h + l) :: bs
      | _, _ => none := by
  rw [percentDecode.eq_def]
  simp only [if_pos rfl, if_true]

/-- Decoding one percent-encoded byte peels it off and leaves the rest. -/
theorem percentDecode_encodeByte {b : Nat} (hb : b < 256) (rest : List Char) :
    percentDecode (percentEncodeByte b ++ rest) =
      (percentDecode rest).map fun bs => b :: bs := by
  by_cases ha : isAsciiAlphanumericByte b = true
  · have hrange : (48 ≤ b ∧ b ≤ 57) ∨ (65 ≤ b ∧ b ≤ 90) ∨ (97 ≤ b ∧ b ≤ 122) := by
      simpa [isAsciiAlphanumericByte, Bool.or_eq_true, Bool.and_eq_true,
        decide_eq_true_eq, or_assoc] using ha
    have ht : (Char.ofNat b).toNat = b := char_toNat_ofNat (by omega)
    have hpc : ('%').toNat = 37 := by decide
    have hne : ¬ (Char.ofNat b = '%') := by
      intro hc
      have h37 := congrArg Char.toNat hc
      rw [ht, hpc] at h37
      omega
    simp only [percentEncodeByte, if_pos ha, List.cons_append, List.nil_append,
      percentDecode_cons_ne hne, ht]
  · simp only [percentEncodeByte, if_neg ha, List.cons_append, List.nil_append,
      percentDecode_cons_pct, hexVal_hexDigitChar (show b / 16 < 16 by omega),
      hexVal_hexDigitChar (show b % 16 < 16 by omega)]
    have hb' : 16 * (b / 16) + b % 16 = b := by omega
    rw [hb']

/-- `percentEncode` unfolds on a cons cell. -/
theorem percentEncode_cons (b : Nat) (bs : List Nat) :
    percentEncode (b :: bs) = percentEncodeByte b ++ percentEncode bs := by
  simp [percentEncode]

/-- Percent-decoding inverts percent-encoding on byte sequences. -/
theorem percentDecode_percentEncode {bs : List Nat} (h : ∀ b ∈ bs, b < 256) :
    percentDecode (percentEncode bs) = some bs := by
  induction bs with
  | nil => rfl
  | cons b rest ih =>
    rw [percentEncode_cons, percentDecode_encodeByte (h b (by simp)),
      ih (fun x hx => h x (by simp [hx]))]
    rfl

/-! ### Substring-test and query-extraction lemmas -/

/-- The Boolean scan agrees with the `IsInfix` relation. -/
theorem containsAt_iff (pat s : List Char) :
    containsAt pat s = true ↔ pat <:+: s := by
  induction s with
  | nil =>
    simp [containsAt, List.isPrefixOf_iff_prefix]
  | cons c rest ih =>
    simp [containsAt, List.isPrefixOf_iff_prefix, ih, List.infix_cons_iff]

/-- `strContains` agrees with substring containment of the character data. -/
theorem strContains_iff (s pat : String) :
    strContains s pat = true ↔ pat.data <:+: s.data :=
  containsAt_iff pat.data s.data

/-- Scanning for the first `'='` across a prefix free of it. -/
theorem qValueList_append {pre enc : List Char} (h : ∀ c ∈ pre, ¬ c = '=') :
    qValueList (pre ++ '=' :: enc) = enc := by
  induction pre with
  | nil => simp [qValueList]
  | cons c cs ih =>
    simp only [List.cons_append, qValueList]
    rw [if_neg (h c (by simp))]
    exact ih fun x hx => h x (by simp [hx])

/-! ### Claim theorems: the pure formatting pipeline -/

/-- C2: for every content string `s` and query list `q`, if `s` contains the
substring "```" then `format_content` wraps `s` with `<paste>`/`</paste>`
tags (never a triple-backtick fence), and if it does not, `format_content`
wraps `s` in a fence opened by "```paste" and closed by "```". -/
theorem c2_wrap_selection (s : String) (q : List String) :
    ("```".data <:+: s.data →
      format_content s q =
        (if q.isEmpty then "<paste>\n" ++ s ++ "\n</paste>"
         else "<paste>\n" ++ s ++ "\n</paste>" ++ "\n" ++ " ".intercalate q)) ∧
    (¬ ("```".data <:+: s.data) →
      format_content s q =
        (if q.isEmpty then "```paste\n" ++ s ++ "\n```"
         else "```paste\n" ++ s ++ "\n```" ++ "\n" ++ " ".intercalate q)) := by
  have hiff := strContains_iff s "```"
  constructor
  · intro h
    have hb : strContains s "```" = true := hiff.mpr h
    by_cases hq : q.isEmpty <;> simp [format_content, hb, hq]
  · intro h
    have hb : strContains s "```" = false := by
      cases hsc : strContains s "```" with
      | false => rfl
      | true => exact absurd (hiff.mp hsc) h
    by_cases hq : q.isEmpty <;> simp [format_content, hb, hq]

/-- Witness for C2 at a concrete collision input. -/
theorem c2_wrap_selection_witness :
    format_content "a```b" ["hi"] =
      (if (["hi"] : List String).isEmpty then "<paste>\na```b\n</paste>"
       else "<paste>\na```b\n</paste>" ++ "\n" ++ " ".intercalate ["hi"]) :=
  (c2_wrap_selection "a```b" ["hi"]).1 (by decide)

/-- C5: for every content string `s`: with a non-empty query list `q` the
formatted output is the wrapped content, one newline, then the tokens of `q`
joined by single spaces; with an empty `q` it is the wrapped content alone. -/
theorem c5_query_append (s : String) (q : List String) :
    (q ≠ [] → format_content s q =
      (if strContains s "```" then "<paste>\n" ++ s ++ "\n</paste>"
       else "```paste\n" ++ s ++ "\n```") ++ "\n" ++ " ".intercalate q) ∧
    (q = [] → format_content s q =
      (if strContains s "```" then "<paste>\n" ++ s ++ "\n</paste>"
       else "```paste\n" ++ s ++ "\n```")) := by
  constructor
  · intro hq
    have hne : q.isEmpty = false := by
      cases q with
      | nil => exact absurd rfl hq
      | cons a as => rfl
    simp [format_content, hne]
  · intro hq
    subst hq
    simp [format_content]

/-- Witness for C5 at a concrete input with two query tokens. -/
theorem c5_query_append_witness :
    format_content "abc" ["x", "y"] =
      (if strContains "abc" "```" then "<paste>\nabc\n</paste>"
       else "```paste\nabc\n```") ++ "\n" ++ " ".intercalate ["x", "y"] :=
  (c5_query_append "abc" ["x", "y"]).1 (by decide)

/-- C4: `get_provider_url` percent-encodes every byte outside the
alphanumeric set as a `%HH` escape, substitutes the encoded payload into the
provider's fixed template, and on the two concrete inputs of the claim
produces exactly the quoted URLs. -/
theorem c4_encode_and_templates :
    (∀ b : Nat, isAsciiAlphanumericByte b = false →
      percentEncodeByte b = ['%', hexDigitChar (b / 16), hexDigitChar (b % 16)]) ∧
    (∀ payload : String,
      get_provider_url "claude" payload =
        Except.ok ("https://claude.ai/new?q=" ++ encodePayload payload) ∧
      get_provider_url "chatgpt" payload =
        Except.ok ("https://chatgpt.com/?q=" ++ encodePayload payload)) ∧
    get_provider_url "claude" "x" = Except.ok "https://claude.ai/new?q=x" ∧
    get_provider_url "chatgpt" "hello world" =
      Except.ok "https://chatgpt.com/?q=hello%20world" := by
  refine ⟨fun b hb => ?_, fun payload => ⟨rfl, rfl⟩, by decide, by decide⟩
  simp [percentEncodeByte, hb]

/-- Witness for C4's escaping clause at the space byte `0x20`. -/
theorem c4_encode_and_templates_witness :
    percentEncodeByte 32 = ['%', hexDigitChar (32 / 16), hexDigitChar (32 % 16)] :=
  c4_encode_and_templates.1 32 (by decide)

/-- C7: every provider name other than "claude" and "chatgpt" is rejected
with an error naming the provider; the two known keys succeed. -/
theorem c7_unsupported_provider (provider payload : String) :
    (provider ≠ "claude" → provider ≠ "chatgpt" →
      get_provider_url provider payload =
        Except.error ("Unsupported provider: " ++ provider)) ∧
    (∃ u, get_provider_url "claude" payload = Except.ok u) ∧
    (∃ u, get_provider_url "chatgpt" payload = Except.ok u) := by
  refine ⟨fun h1 h2 => ?_, ⟨_, rfl⟩, ⟨_, rfl⟩⟩
  simp [get_provider_url, h1, h2]

/-- Witness for C7 at the provider name "unknown". -/
theorem c7_unsupported_provider_witness :
    get_provider_url "unknown" "x" =
      Except.error ("Unsupported provider: " ++ "unknown") :=
  (c7_unsupported_provider "unknown" "x").1 (by decide) (by decide)

/-- C3: for every payload and every URL successfully produced by
`get_provider_url`, percent-decoding the value of the `q=` parameter gives
back exactly the payload's UTF-8 bytes; and those bytes determine the payload
(UTF-8 encoding is injective), so the round trip recovers the original
payload including all whitespace, punctuation, and non-ASCII characters. -/
theorem c3_percent_roundtrip (payload provider url : String)
    (h : get_provider_url provider payload = Except.ok url) :
    percentDecode (qValueList url.data) = some (utf8Encode payload.data) ∧
    ∀ p : String, utf8Encode p.data = utf8Encode payload.data → p = payload := by
  refine ⟨?_, fun p hp => String.ext (utf8Encode_inj hp)⟩
  have hdec : ∀ pre : List Char, (∀ c ∈ pre, ¬ c = '=') →
      ∀ u : String, u.data = pre ++ '=' :: percentEncode (utf8Encode payload.data) →
      percentDecode (qValueList u.data) = some (utf8Encode payload.data) := by
    intro pre hpre u hu
    rw [hu, qValueList_append hpre,
      percentDecode_percentEncode (utf8Encode_lt payload.data)]
  by_cases h1 : provider = "claude"
  · subst h1
    have hok : get_provider_url "claude" payload =
        Except.ok ("https://claude.ai/new?q=" ++ encodePayload payload) := rfl
    rw [hok] at h
    have hu : url = "https://claude.ai/new?q=" ++ encodePayload payload := by
      injection h with h'
      exact h'.symm
    refine hdec "https://claude.ai/new?q".data (by decide) url ?_
    rw [hu]
    rfl
  · by_cases h2 : provider = "chatgpt"
    · subst h2
      have hok : get_provider_url "chatgpt" payload =
          Except.ok ("https://chatgpt.com/?q=" ++ encodePayload payload) := rfl
      rw [hok] at h
      have hu : url = "https://chatgpt.com/?q=" ++ encodePayload payload := by
        injection h with h'
        exact h'.symm
      refine hdec "https://chatgpt.com/?q".data (by decide) url ?_
      rw [hu]
      rfl
    · exfalso
      simp [get_provider_url, h1, h2] at h

/-- Witness for C3 at the payload "hello world" through the chatgpt URL. -/
theorem c3_percent_roundtrip_witness :
    percentDecode (qValueList ("https://chatgpt.com/?q=hello%20world" : String).data) =
      some (utf8Encode ("hello world" : String).data) :=
  (c3_percent_roundtrip "hello world" "chatgpt"
    "https://chatgpt.com/?q=hello%20world" (by decide)).1

/-! ### Claim theorems: the `main` pipeline -/

/-- C6: whenever both the clipboard flag and the context option are set, the
program fails with the conflicting-flags usage error and the effect trace is
empty — no clipboard read and no subprocess invocation happens. -/
theorem c6_conflicting_flags (env : Env) (args : Args)
    (hc : args.clipboard = true) (hx : args.context.isSome = true) :
    mainRun env args =
      (Except.error "--clipboard and --context flags are not compatible", []) := by
  simp [mainRun, hc, hx]

/-- Witness for C6 at a concrete conflicting invocation. -/
theorem c6_conflicting_flags_witness :
    mainRun
      { clipboardResult := Except.ok "x", contextualizeOk := true,
        contextualizeStderr := "", browserOk := true }
      { context := some ["a.txt"], clipboard := true, provider := "chatgpt",
        prompt := [] } =
      (Except.error "--clipboard and --context flags are not compatible", []) :=
  c6_conflicting_flags _ _ rfl rfl

/-- C8: with context paths given (and the conflicting clipboard flag absent),
the context tool runs as a subprocess; if it exits non-zero the program fails
with an error carrying the captured diagnostic stream and the clipboard is
never read; if it succeeds, the clipboard read happens right after it. -/
theorem c8_contextualize_flow (env : Env) (args : Args) (files : List String)
    (hx : args.context = some files) (hc : args.clipboard = false) :
    (env.contextualizeOk = false →
      mainRun env args =
        (Except.error ("contextualize command failed: " ++ env.contextualizeStderr),
         [Effect.runContextualize files])) ∧
    (env.contextualizeOk = true →
      ∃ rest, (mainRun env args).2 =
        Effect.runContextualize files :: Effect.readClipboard :: rest) := by
  constructor
  · intro hk
    simp [mainRun, hx, hc, run_contextualize, hk]
  · intro hk
    cases hclip : env.clipboardResult with
    | error e =>
      refine ⟨[], ?_⟩
      simp [mainRun, hx, hc, run_contextualize, hk, get_clipboard_content, hclip]
    | ok content =>
      by_cases hce : content = ""
      · refine ⟨(run_search env (" ".intercalate args.prompt) args.provider).2, ?_⟩
        simp [mainRun, hx, hc, run_contextualize, hk, get_clipboard_content,
          hclip, hce]
      · refine ⟨(run_search env (format_content content args.prompt)
          args.provider).2, ?_⟩
        simp [mainRun, hx, hc, run_contextualize, hk, get_clipboard_content,
          hclip, hce]

/-- Witness for C8 at a failing subprocess run. -/
theorem c8_contextualize_flow_witness :
    mainRun
      { clipboardResult := Except.ok "x", contextualizeOk := false,
        contextualizeStderr := "boom", browserOk := true }
      { context := some ["f.rs"], clipboard := false, provider := "claude",
        prompt := [] } =
      (Except.error ("contextualize command failed: " ++ "boom"),
       [Effect.runContextualize ["f.rs"]]) :=
  (c8_contextualize_flow _ _ ["f.rs"] rfl rfl).1 rfl

/-- C9: with content absent (no clipboard flag, no context paths), the
program runs the launcher on exactly the query tokens joined by single
spaces; in particular for an empty token list the payload is the empty
string and the browser launch is still attempted. -/
theorem c9_pure_query_mode (env : Env) (args : Args)
    (hx : args.context = none) (hc : args.clipboard = false) :
    mainRun env args = run_search env (" ".intercalate args.prompt) args.provider ∧
    (args.prompt = [] →
      ∀ url, get_provider_url args.provider "" = Except.ok url →
        Effect.openBrowser url ∈ (mainRun env args).2) := by
  have h1 : mainRun env args =
      run_search env (" ".intercalate args.prompt) args.provider := by
    simp [mainRun, hx, hc]
  refine ⟨h1, fun hp url hurl => ?_⟩
  rw [h1, hp]
  have hj : (" ".intercalate ([] : List String)) = "" := rfl
  rw [hj]
  simp only [run_search, hurl]
  by_cases hbr : env.browserOk <;> simp [hbr]

/-- Witness for C9: empty prompt, absent content, launch attempted. -/
theorem c9_pure_query_mode_witness :
    Effect.openBrowser "https://claude.ai/new?q=" ∈
      (mainRun
        { clipboardResult := Except.error "no clipboard", contextualizeOk := true,
          contextualizeStderr := "", browserOk := true }
        { context := none, clipboard := false, provider := "claude",
          prompt := [] }).2 :=
  (c9_pure_query_mode _ _ rfl rfl).2 rfl "https://claude.ai/new?q=" (by decide)

/-- C10: on every invocation in which acquisition yields the empty string as
content — the clipboard read returning `""` under `--clipboard`, or the
context route with a successful tool run and a clipboard read returning `""`
— the program does not error and does not wrap: it proceeds in pure query
mode, launching on the query tokens joined by single spaces. -/
theorem c10_empty_content_query_mode (env : Env) (args : Args)
    (hclip : env.clipboardResult = Except.ok "") :
    (args.context = none → args.clipboard = true →
      mainRun env args =
        ((run_search env (" ".intercalate args.prompt) args.provider).1,
         Effect.readClipboard ::
           (run_search env (" ".intercalate args.prompt) args.provider).2)) ∧
    (∀ files, args.context = some files → args.clipboard = false →
      env.contextualizeOk = true →
      mainRun env args =
        ((run_search env (" ".intercalate args.prompt) args.provider).1,
         Effect.runContextualize files :: Effect.readClipboard ::
           (run_search env (" ".intercalate args.prompt) args.provider).2)) := by
  constructor
  · intro hx hc
    simp [mainRun, hx, hc, get_clipboard_content, hclip]
  · intro files hx hc hk
    simp [mainRun, hx, hc, run_contextualize, hk, get_clipboard_content, hclip]

/-- Witness for C10: empty clipboard after a successful context-tool run. -/
theorem c10_empty_content_query_mode_witness :
    mainRun
      { clipboardResult := Except.ok "", contextualizeOk := true,
        contextualizeStderr := "", browserOk := true }
      { context := some ["a.txt"], clipboard := false, provider := "claude",
        prompt := ["a", "b"] } =
      ((run_search
          { clipboardResult := Except.ok "", contextualizeOk := true,
            contextualizeStderr := "", browserOk := true }
          (" ".intercalate ["a", "b"]) "claude").1,
       Effect.runContextualize ["a.txt"] :: Effect.readClipboard ::
         (run_search
            { clipboardResult := Except.ok "", contextualizeOk := true,
              contextualizeStderr := "", browserOk := true }
            (" ".intercalate ["a", "b"]) "claude").2) :=
  (c10_empty_content_query_mode _ _ rfl).2 ["a.txt"] rfl rfl rfl

/-- C1 counterexample: with `--clipboard` set and whitespace-only clipboard
text `"   \n"`, the program does not fail with any `EmptyClipboard` error —
it formats the content and launches the browser successfully. -/
theorem c1_counterexample :
    mainRun
      { clipboardResult := Except.ok "   \n", contextualizeOk := true,
        contextualizeStderr := "", browserOk := true }
      { context := none, clipboard := true, provider := "chatgpt", prompt := [] } =
      (Except.ok (),
       [Effect.readClipboard,
        Effect.openBrowser
          "https://chatgpt.com/?q=%60%60%60paste%0A%20%20%20%0A%0A%60%60%60"]) := by
  decide

/-- C1 (amended): on every invocation in which the clipboard path or the
context path was taken and the clipboard read succeeded: if the acquired
text is non-empty — including whitespace-only text such as `"   \n"` — the
program proceeds to format the content and launch, and if it is empty the
program falls through to pure query mode; there is no `EmptyClipboard`
failure anywhere in the pipeline. -/
theorem c1_amended_launch (env : Env) (args : Args) (s : String)
    (hclip : env.clipboardResult = Except.ok s) :
    (args.context = none → args.clipboard = true →
      (s ≠ "" → mainRun env args =
        ((run_search env (format_content s args.prompt) args.provider).1,
         Effect.readClipboard ::
           (run_search env (format_content s args.prompt) args.provider).2)) ∧
      (s = "" → mainRun env args =
        ((run_search env (" ".intercalate args.prompt) args.provider).1,
         Effect.readClipboard ::
           (run_search env (" ".intercalate args.prompt) args.provider).2))) ∧
    (∀ files, args.context = some files → args.clipboard = false →
      env.contextualizeOk = true →
      (s ≠ "" → mainRun env args =
        ((run_search env (format_content s args.prompt) args.provider).1,
         Effect.runContextualize files :: Effect.readClipboard ::
           (run_search env (format_content s args.prompt) args.provider).2)) ∧
      (s = "" → mainRun env args =
        ((run_search env (" ".intercalate args.prompt) args.provider).1,
         Effect.runContextualize files :: Effect.readClipboard ::
           (run_search env (" ".intercalate args.prompt) args.provider).2))) := by
  constructor
  · intro hx hc
    constructor
    · intro hs
      simp [mainRun, hx, hc, get_clipboard_content, hclip, hs]
    · intro hs
      subst hs
      simp [mainRun, hx, hc, get_clipboard_content, hclip]
  · intro files hx hc hk
    constructor
    · intro hs
      simp [mainRun, hx, hc, run_contextualize, hk, get_clipboard_content,
        hclip, hs]
    · intro hs
      subst hs
      simp [mainRun, hx, hc, run_contextualize, hk, get_clipboard_content, hclip]

/-- Witness for the amended C1: whitespace-only clipboard text acquired
through the context route is formatted and launched. -/
theorem c1_amended_launch_witness :
    mainRun
      { clipboardResult := Except.ok "   \n", contextualizeOk := true,
        contextualizeStderr := "", browserOk := true }
      { context := some ["f.rs"], clipboard := false, provider := "claude",
        prompt := [] } =
      ((run_search
          { clipboardResult := Except.ok "   \n", contextualizeOk := true,
            contextualizeStderr := "", browserOk := true }
          (format_content "   \n" []) "claude").1,
       Effect.runContextualize ["f.rs"] :: Effect.readClipboard ::
         (run_search
            { clipboardResult := Except.ok "   \n", contextualizeOk := true,
              contextualizeStderr := "", browserOk := true }
            (format_content "   \n" []) "claude").2) :=
  ((c1_amended_launch _ _ "   \n" rfl).2 ["f.rs"] rfl rfl rfl).1 (by decide)

end Search
